import Mathlib

/-!
Verification of the JUnit XML to CSV batch converter (src/junit_parser.py).

The program is embedded shallowly:

* An XML document that xml.etree.ElementTree parsed successfully is a tree
  of `XmlElem` values (tag, attribute list, children).  A file on disk is an
  `Entry`: its path string, whether it is a regular file, and the outcome of
  trying to open and parse it (`Except.error msg` models any exception that
  `ET.parse` raises; `Except.ok root` models a successful parse with the
  returned root element).
* A directory is a `Dir`: existence flag, is-a-directory flag, and the list
  of entries the operating system reports, in the unspecified order that
  `Path.glob` iterates them.
* `stdout` and `stderr` are modelled as the lists of lines printed to them,
  in program order; `sys.exit` codes become the `exitCode` field of
  `RunResult`.

Python compares `pathlib.Path` values lexicographically on their string
representation, which for `sorted` on paths from a single directory is the
usual lexicographic order on the path strings.  Character-by-character
comparison of `String.toList` gives exactly that order (see
`String.le_iff_toList_le`).  Python `sorted` is a stable sort for that total
preorder; `List.insertionSort` is as well, and a stable sort result is
uniquely determined, so `sortByPath` computes the same list `sorted` does.
-/

namespace JUnitParser

/-- An XML element as xml.etree.ElementTree presents it: a tag name, the
attribute list (keys are unique in a parsed document), and the child
elements in document order. -/
inductive XmlElem : Type where
  | node : String → List (String × String) → List XmlElem → XmlElem
deriving Repr

/-- Tag name of an element (`Element.tag`). -/
def XmlElem.tag : XmlElem → String
  | .node t _ _ => t

/-- Attribute list of an element (`Element.attrib`). -/
def XmlElem.attrs : XmlElem → List (String × String)
  | .node _ a _ => a

/-- Child elements of an element, in document order. -/
def XmlElem.children : XmlElem → List XmlElem
  | .node _ _ c => c

/-- `Element.get(key, default)`: the value of the attribute named `key`, or
the default when no such attribute exists. -/
def XmlElem.get (e : XmlElem) (key dflt : String) : String :=
  match e.attrs.find? (fun q => q.1 == key) with
  | some q => q.2
  | none => dflt

/-- `Element.find(tag)` with a plain tag name: ElementTree matches the
first DIRECT child whose tag equals `tag` (it does not descend). -/
def XmlElem.find (e : XmlElem) (t : String) : Option XmlElem :=
  e.children.find? (fun c => c.tag == t)

mutual
/-- Modelled from the spec sentence for step 2 of the Suite Extractor:
search the direct and descendant elements of the root for the first
element named `t`, in standard document order.  This definition follows
the words of the spec and exists only to be compared against the
code-derived `XmlElem.find`; the code itself never searches descendants. -/
def specFindDescendant (t : String) : XmlElem → Option XmlElem
  | .node _ _ cs => specFindDescendantList t cs
/-- Document-order search of a sibling list: each element is checked before
its own subtree, and a whole subtree before the following sibling. -/
def specFindDescendantList (t : String) : List XmlElem → Option XmlElem
  | [] => none
  | c :: cs =>
    if c.tag == t then some c
    else
      match specFindDescendant t c with
      | some r => some r
      | none => specFindDescendantList t cs
end

/-- The record `parse_junit_xml` builds (lines 43 to 47 of the source):
the three attribute texts, kept verbatim. -/
structure SuiteRecord where
  name : String
  tests : String
  time : String
deriving Repr, DecidableEq

/-- One directory entry as the operating system presents it: the path
string, whether the path is a regular file (`Path.is_file`), and the
outcome `xml.etree.ElementTree.parse` would produce on it: `ok root` on a
successful parse, `error msg` for any exception raised while opening or
parsing (malformed XML, unreadable file, encoding error, and so on). -/
structure Entry where
  path : String
  isFile : Bool
  parsed : Except String XmlElem

/-- Extraction of the three attributes from the resolved suite element
(lines 39 to 41 of the source): defaults "Unknown", "0", "0". -/
def extractRecord (ts : XmlElem) : SuiteRecord :=
  ⟨ts.get "name" "Unknown", ts.get "tests" "0", ts.get "time" "0"⟩

/-- `parse_junit_xml` (lines 14 to 50 of the source).  The first component
is the returned value (`none` models Python `None`), the second component
is the list of lines the call prints to stderr.  The source prints
f-string `Error parsing {xml_file}: {e}` in the except branch. -/
def parse_junit_xml (f : Entry) : Option SuiteRecord × List String :=
  match f.parsed with
  | .error e => (none, ["Error parsing " ++ f.path ++ ": " ++ e])
  | .ok root =>
    if root.tag == "testsuite" then
      (some (extractRecord root), [])
    else if root.tag == "testsuites" then
      match root.find "testsuite" with
      | none => (none, [])
      | some ts => (some (extractRecord ts), [])
    else
      (none, [])

/-- The glob pattern `*.xml` of line 75: `*` matches any (possibly empty)
character sequence, so a name matches exactly when it ends with the four
characters `.xml`. -/
def matchesXmlGlob (p : String) : Bool :=
  List.isPrefixOf (List.reverse (String.toList ".xml")) (List.reverse (String.toList p))

/-- A directory as `find_xml_files` probes it: `Path.exists`,
`Path.is_dir`, and the entries matching consideration by `glob`. -/
structure Dir where
  pathExists : Bool
  isDirectory : Bool
  entries : List Entry

/-- `find_xml_files` (lines 53 to 79 of the source): first component the
collected file list, second the stderr lines.  The Python messages wrap
the directory name in single quote marks; those two quote characters are
elided here, the rest of the text is verbatim. -/
def find_xml_files (directory : String) (d : Dir) : List Entry × List String :=
  if d.pathExists = false then
    ([], ["Error: Directory " ++ directory ++ " does not exist"])
  else if d.isDirectory = false then
    ([], ["Error: " ++ directory ++ " is not a directory"])
  else
    (d.entries.filter (fun f => matchesXmlGlob f.path && f.isFile), [])

/-- Path order used by `sorted(xml_files)` on line 99: lexicographic
comparison of the path strings, taken character by character. -/
def entryLe (a b : Entry) : Prop := a.path.toList ≤ b.path.toList

instance : DecidableRel entryLe :=
  fun a b => (inferInstance : Decidable (a.path.toList ≤ b.path.toList))

instance : IsTotal Entry entryLe :=
  ⟨fun a b => le_total a.path.toList b.path.toList⟩

instance : IsTrans Entry entryLe :=
  ⟨fun _ _ _ h1 h2 => le_trans h1 h2⟩

/-- `sorted(xml_files)` of line 99: a stable sort of the entries by path. -/
def sortByPath (l : List Entry) : List Entry := List.insertionSort entryLe l

/-- The f-string of line 102: fields joined by commas, no quoting. -/
def csvRow (r : SuiteRecord) : String := r.name ++ "," ++ r.tests ++ "," ++ r.time

/-- The loop of lines 99 to 102 applied to an already sorted list: first
component the stdout rows, second the stderr lines, both in loop order. -/
def emitRows : List Entry → List String × List String
  | [] => ([], [])
  | f :: rest =>
    (((parse_junit_xml f).1.map csvRow).toList ++ (emitRows rest).1,
     (parse_junit_xml f).2 ++ (emitRows rest).2)

/-- Usage message of line 85. -/
def usageMsg : String := "Usage: python junit_parser.py <directory>"

/-- Header line of line 96. -/
def headerLine : String := "TestSuite,Tests,Runtime"

/-- Diagnostic of line 92. -/
def noXmlMsg (directory : String) : String :=
  "No XML files found in directory: " ++ directory

/-- Observable outcome of one process run: exit status, stdout lines,
stderr lines. -/
structure RunResult where
  exitCode : Nat
  stdout : List String
  stderr : List String
deriving Repr, DecidableEq

/-- `main` (lines 82 to 102 of the source).  `argv` models the full
`sys.argv`, program name included, so the length check against 2 is the
check of line 84.  `fs` models the file system: the directory state the
operating system reports for each path string. -/
def main (argv : List String) (fs : String → Dir) : RunResult :=
  match argv with
  | [_, directory] =>
    let fr := find_xml_files directory (fs directory)
    if fr.1.isEmpty then
      ⟨1, [], fr.2 ++ [noXmlMsg directory]⟩
    else
      let rows := emitRows (sortByPath fr.1)
      ⟨0, headerLine :: rows.1, fr.2 ++ rows.2⟩
  | _ => ⟨1, [], [usageMsg]⟩

/-! Fixtures: small concrete documents and entries used by the concrete
instances below. -/

/-- A well-formed suite document with three attributes. -/
def suiteAlpha : XmlElem := .node "testsuite" [("name","Alpha"),("tests","3"),("time","0.1")] []

/-- A second well-formed suite document. -/
def suiteBeta : XmlElem := .node "testsuite" [("name","Beta"),("tests","2"),("time","0.2")] []

/-- Directory entry for `suiteAlpha`. -/
def entryAlpha : Entry := ⟨"d/alpha.xml", true, .ok suiteAlpha⟩

/-- Directory entry for `suiteBeta`. -/
def entryBeta : Entry := ⟨"d/beta.xml", true, .ok suiteBeta⟩

/-- A file on which the XML parser raises. -/
def entryBroken : Entry := ⟨"d/broken.xml", true, .error "syntax error: line 1, column 0"⟩

/-- A `testsuites` document whose only `testsuite` element is nested one
level down, inside a wrapper element, so it is a descendant of the root
but not a direct child. -/
def deepDoc : XmlElem :=
  .node "testsuites" [] [.node "group" [] [.node "testsuite" [("name","X"),("tests","7"),("time","2.0")] []]]

/-! Helper lemmas. -/

/-- Two lists of entries that are permutations of each other, both sorted
by path, with pairwise distinct paths, are equal. -/
theorem perm_pairwise_nodupPath_eq (l1 : List Entry) :
    ∀ l2 : List Entry, l1.Perm l2 → l1.Pairwise entryLe → l2.Pairwise entryLe →
      (l1.map Entry.path).Nodup → l1 = l2 := by
  induction l1 with
  | nil =>
    intro l2 hp _ _ _
    exact (hp.symm.eq_nil).symm
  | cons a t1 ih =>
    intro l2 hp h1 h2 hnd
    rw [List.map_cons, List.nodup_cons] at hnd
    cases l2 with
    | nil => exact absurd hp.eq_nil (by simp)
    | cons b t2 =>
      by_cases hab : a = b
      · subst hab
        rw [ih t2 hp.cons_inv h1.of_cons h2.of_cons hnd.2]
      · exfalso
        have hbmem : b ∈ t1 := by
          have hb : b ∈ a :: t1 := hp.mem_iff.mpr (List.mem_cons_self b t2)
          rcases List.mem_cons.mp hb with h | h
          · exact absurd h.symm hab
          · exact h
        have hamem : a ∈ t2 := by
          have ha : a ∈ b :: t2 := hp.mem_iff.mp (List.mem_cons_self a t1)
          rcases List.mem_cons.mp ha with h | h
          · exact absurd h hab
          · exact h
        have rab : entryLe a b := List.rel_of_pairwise_cons h1 hbmem
        have rba : entryLe b a := List.rel_of_pairwise_cons h2 hamem
        have hpath : a.path = b.path := String.toList_inj.mp (le_antisymm rab rba)
        exact hnd.1 (hpath ▸ List.mem_map_of_mem Entry.path hbmem)

/-- The sort of line 99 is a permutation of its input. -/
theorem sortByPath_perm (l : List Entry) : (sortByPath l).Perm l :=
  List.perm_insertionSort entryLe l

/-- The sort of line 99 produces a list sorted by path. -/
theorem sortByPath_sorted (l : List Entry) : List.Sorted entryLe (sortByPath l) :=
  List.sorted_insertionSort entryLe l

/-- When the paths are pairwise distinct, the sorted list depends only on
the multiset of entries, not on the enumeration order. -/
theorem sortByPath_congr (l1 l2 : List Entry) (hp : l1.Perm l2)
    (hnd : (l1.map Entry.path).Nodup) : sortByPath l1 = sortByPath l2 :=
  perm_pairwise_nodupPath_eq (sortByPath l1) (sortByPath l2)
    ((sortByPath_perm l1).trans (hp.trans (sortByPath_perm l2).symm))
    (sortByPath_sorted l1) (sortByPath_sorted l2)
    (((sortByPath_perm l1).map Entry.path).symm.nodup hnd)

/-- On an existing directory the scanner just filters the entries and
writes nothing to stderr. -/
theorem find_xml_files_ok (directory : String) (d : Dir)
    (he : d.pathExists = true) (hd : d.isDirectory = true) :
    find_xml_files directory d
      = (d.entries.filter (fun f => matchesXmlGlob f.path && f.isFile), []) := by
  simp [find_xml_files, he, hd]

/-- Permuting the directory enumeration permutes the scanner result. -/
theorem find_xml_files_perm (directory : String) (d1 d2 : Dir)
    (he : d1.pathExists = d2.pathExists) (hd : d1.isDirectory = d2.isDirectory)
    (hp : d1.entries.Perm d2.entries) :
    (find_xml_files directory d1).1.Perm (find_xml_files directory d2).1 := by
  have he2 : d2.pathExists = d1.pathExists := he.symm
  have hd2 : d2.isDirectory = d1.isDirectory := hd.symm
  cases hex : d1.pathExists with
  | false => simp [find_xml_files, hex, he2.trans hex]
  | true =>
    cases hdir : d1.isDirectory with
    | false => simp [find_xml_files, hex, hdir, he2.trans hex, hd2.trans hdir]
    | true =>
      rw [find_xml_files_ok directory d1 hex hdir,
        find_xml_files_ok directory d2 (he2.trans hex) (hd2.trans hdir)]
      exact hp.filter _

/-- Distinctness of the entry paths carries over to the scanner result. -/
theorem find_xml_files_nodup (directory : String) (d : Dir)
    (hnd : (d.entries.map Entry.path).Nodup) :
    ((find_xml_files directory d).1.map Entry.path).Nodup := by
  cases hex : d.pathExists with
  | false => simp [find_xml_files, hex]
  | true =>
    cases hdir : d.isDirectory with
    | false => simp [find_xml_files, hex, hdir]
    | true =>
      rw [find_xml_files_ok directory d hex hdir]
      exact List.Nodup.sublist ((List.filter_sublist d.entries).map Entry.path) hnd

/-- The row loop distributes over list concatenation (stdout part). -/
theorem emitRows_append (l1 l2 : List Entry) :
    (emitRows (l1 ++ l2)).1 = (emitRows l1).1 ++ (emitRows l2).1 := by
  induction l1 with
  | nil => simp [emitRows]
  | cons f t ih => simp [emitRows, ih]

/-- A batch in which every file fails extraction produces no rows. -/
theorem emitRows_none_fst (l : List Entry)
    (h : ∀ f ∈ l, (parse_junit_xml f).1 = none) : (emitRows l).1 = [] := by
  induction l with
  | nil => rfl
  | cons f t ih =>
    have hf := h f (List.mem_cons_self f t)
    have ht := ih (fun g hg => h g (List.mem_cons_of_mem f hg))
    simp [emitRows, hf, ht]

/-- Unfolding of `main` on a two-element argument vector. -/
theorem main_eq_two (p directory : String) (fs : String → Dir) :
    main [p, directory] fs =
      if (find_xml_files directory (fs directory)).1.isEmpty then
        ⟨1, [], (find_xml_files directory (fs directory)).2 ++ [noXmlMsg directory]⟩
      else
        ⟨0, headerLine :: (emitRows (sortByPath (find_xml_files directory (fs directory)).1)).1,
          (find_xml_files directory (fs directory)).2
            ++ (emitRows (sortByPath (find_xml_files directory (fs directory)).1)).2⟩ := rfl

/-- Unfolding of `main` on any argument vector of the wrong length. -/
theorem main_usage (argv : List String) (fs : String → Dir) (h : argv.length ≠ 2) :
    main argv fs = ⟨1, [], [usageMsg]⟩ := by
  match argv with
  | [] => rfl
  | [_] => rfl
  | [_, _] => simp at h
  | _ :: _ :: _ :: _ => rfl

/-- Stdout and exit code of `main` depend only on the flags and the entry
multiset of the queried directory, provided the entry paths are
pairwise distinct. -/
theorem main_congr_perm (p directory : String) (fs1 fs2 : String → Dir)
    (he : (fs1 directory).pathExists = (fs2 directory).pathExists)
    (hd : (fs1 directory).isDirectory = (fs2 directory).isDirectory)
    (hp : (fs1 directory).entries.Perm (fs2 directory).entries)
    (hnd : ((fs1 directory).entries.map Entry.path).Nodup) :
    (main [p, directory] fs1).stdout = (main [p, directory] fs2).stdout ∧
    (main [p, directory] fs1).exitCode = (main [p, directory] fs2).exitCode := by
  have hfp : (find_xml_files directory (fs1 directory)).1.Perm
      (find_xml_files directory (fs2 directory)).1 :=
    find_xml_files_perm directory _ _ he hd hp
  have hnd1 : ((find_xml_files directory (fs1 directory)).1.map Entry.path).Nodup :=
    find_xml_files_nodup directory _ hnd
  have hsort : sortByPath (find_xml_files directory (fs1 directory)).1
      = sortByPath (find_xml_files directory (fs2 directory)).1 :=
    sortByPath_congr _ _ hfp hnd1
  have hie : (find_xml_files directory (fs1 directory)).1.isEmpty
      = (find_xml_files directory (fs2 directory)).1.isEmpty := hfp.isEmpty_eq
  rw [main_eq_two, main_eq_two, ← hie]
  cases hE : (find_xml_files directory (fs1 directory)).1.isEmpty with
  | true => simp [hE]
  | false => simp [hE, hsort]

/-! Claim theorems. -/

/-- C1: a file whose root is `testsuite` with attributes name Foo,
tests 12, time 3.4 yields the record (Foo, 12, 3.4), the driver prints
exactly the row `Foo,12,3.4` for it, and a `testsuites` root wrapping such
a suite named Bar with tests 5, time 1.0 yields the row `Bar,5,1.0`:
fields comma-joined with no quoting or escaping. -/
theorem c1_wellformed_rows (p q : String) (b1 b2 : Bool) (cs ds pre post : List XmlElem)
    (a2 : List (String × String)) (hpre : ∀ c ∈ pre, c.tag ≠ "testsuite") :
    parse_junit_xml ⟨p, b1, .ok (.node "testsuite" [("name","Foo"),("tests","12"),("time","3.4")] cs)⟩
      = (some ⟨"Foo","12","3.4"⟩, []) ∧
    csvRow ⟨"Foo","12","3.4"⟩ = "Foo,12,3.4" ∧
    main ["junit_parser.py", "d"]
        (fun _ => ⟨true, true,
          [⟨"d/suite.xml", true, .ok (.node "testsuite" [("name","Foo"),("tests","12"),("time","3.4")] cs)⟩]⟩)
      = ⟨0, ["TestSuite,Tests,Runtime", "Foo,12,3.4"], []⟩ ∧
    parse_junit_xml ⟨q, b2, .ok (.node "testsuites" a2
        (pre ++ .node "testsuite" [("name","Bar"),("tests","5"),("time","1.0")] ds :: post))⟩
      = (some ⟨"Bar","5","1.0"⟩, []) ∧
    csvRow ⟨"Bar","5","1.0"⟩ = "Bar,5,1.0" := by
  refine ⟨rfl, by decide, rfl, ?_, by decide⟩
  have hnone : pre.find? (fun c => c.tag == "testsuite") = none :=
    List.find?_eq_none.mpr (fun x hx => by simpa using hpre x hx)
  have hfind : (XmlElem.node "testsuites" a2
      (pre ++ .node "testsuite" [("name","Bar"),("tests","5"),("time","1.0")] ds :: post)).find "testsuite"
      = some (.node "testsuite" [("name","Bar"),("tests","5"),("time","1.0")] ds) := by
    show List.find? (fun c => c.tag == "testsuite")
        (pre ++ .node "testsuite" [("name","Bar"),("tests","5"),("time","1.0")] ds :: post)
      = some (.node "testsuite" [("name","Bar"),("tests","5"),("time","1.0")] ds)
    rw [List.find?_append, hnone, Option.none_or]
    exact List.find?_cons_of_pos _ rfl
  have hex : extractRecord (.node "testsuite" [("name","Bar"),("tests","5"),("time","1.0")] ds)
      = ⟨"Bar","5","1.0"⟩ := rfl
  simp [parse_junit_xml, XmlElem.tag, hfind, hex]

/-- C1 witness: the theorem applied to a concrete wrapper child list. -/
theorem c1_wellformed_rows_witness :
    parse_junit_xml ⟨"d/foo.xml", true, .ok (.node "testsuite" [("name","Foo"),("tests","12"),("time","3.4")] [])⟩
      = (some ⟨"Foo","12","3.4"⟩, []) ∧
    csvRow ⟨"Foo","12","3.4"⟩ = "Foo,12,3.4" ∧
    main ["junit_parser.py", "d"]
        (fun _ => ⟨true, true,
          [⟨"d/suite.xml", true, .ok (.node "testsuite" [("name","Foo"),("tests","12"),("time","3.4")] [])⟩]⟩)
      = ⟨0, ["TestSuite,Tests,Runtime", "Foo,12,3.4"], []⟩ ∧
    parse_junit_xml ⟨"d/bar.xml", false, .ok (.node "testsuites" [("tests","99")]
        ([.node "properties" [] []] ++ .node "testsuite" [("name","Bar"),("tests","5"),("time","1.0")] [] :: []))⟩
      = (some ⟨"Bar","5","1.0"⟩, []) ∧
    csvRow ⟨"Bar","5","1.0"⟩ = "Bar,5,1.0" :=
  c1_wellformed_rows "d/foo.xml" "d/bar.xml" true false [] [] [.node "properties" [] []] []
    [("tests","99")] (by decide)

/-- C2 counterexample: in the document `deepDoc` the first `testsuite`
element in document order among the direct and descendant elements of the
`testsuites` root exists (it sits inside a wrapper child), yet the
extractor yields no result, because `Element.find` with a plain tag name
only inspects direct children.  So the claimed descendant search is not
what the code does. -/
theorem c2_descendants_counterexample :
    (parse_junit_xml ⟨"d/nested.xml", true, .ok deepDoc⟩).1 = none ∧
    specFindDescendant "testsuite" deepDoc
      = some (.node "testsuite" [("name","X"),("tests","7"),("time","2.0")] []) ∧
    (parse_junit_xml ⟨"d/nested.xml", true, .ok deepDoc⟩).1
      ≠ (specFindDescendant "testsuite" deepDoc).map extractRecord :=
  ⟨by decide, rfl, by decide⟩

/-- C2 (amended): for a root tagged `testsuites` the extractor searches
only the DIRECT children of the root, in document order, for the first
element named `testsuite`; if no direct child is named `testsuite` the
extraction yields no result, even when such an element exists deeper
among the descendants. -/
theorem c2_direct_child_only (f : Entry) (root : XmlElem)
    (hp : f.parsed = .ok root) (ht : root.tag = "testsuites") :
    parse_junit_xml f
      = ((root.children.find? (fun c => c.tag == "testsuite")).map extractRecord, []) := by
  simp only [parse_junit_xml, hp, ht]
  norm_num
  cases hf : root.children.find? (fun c => c.tag == "testsuite") with
  | none => simp [XmlElem.find, hf]
  | some ts => simp [XmlElem.find, hf]

/-- C2 witness: the amended theorem applied to a document whose
`testsuite` is a direct child of the `testsuites` root. -/
theorem c2_direct_child_only_witness :
    parse_junit_xml ⟨"d/wrapped.xml", true,
        .ok (.node "testsuites" [] [.node "testsuite" [("name","W"),("tests","4"),("time","9.9")] []])⟩
      = (some ⟨"W","4","9.9"⟩, []) := by
  have h := c2_direct_child_only
    ⟨"d/wrapped.xml", true,
      .ok (.node "testsuites" [] [.node "testsuite" [("name","W"),("tests","4"),("time","9.9")] []])⟩
    (.node "testsuites" [] [.node "testsuite" [("name","W"),("tests","4"),("time","9.9")] []])
    rfl rfl
  rw [h]
  decide

/-- C3: the exit status is 1 exactly when the argument count is wrong
(with the usage line on stderr and nothing on stdout) or the resolved XML
file set is empty (with the no-XML-files diagnostic and no header);
whenever at least one file is found the exit status is 0, independent of
any parse results. -/
theorem c3_exit_codes (argv : List String) (fs : String → Dir) :
    (argv.length ≠ 2 → main argv fs = ⟨1, [], [usageMsg]⟩) ∧
    (∀ p directory, argv = [p, directory] →
      ((find_xml_files directory (fs directory)).1 = [] →
        (main argv fs).exitCode = 1 ∧ (main argv fs).stdout = [] ∧
        (main argv fs).stderr
          = (find_xml_files directory (fs directory)).2 ++ [noXmlMsg directory]) ∧
      ((find_xml_files directory (fs directory)).1 ≠ [] →
        (main argv fs).exitCode = 0)) := by
  constructor
  · exact main_usage argv fs
  · intro p directory ha
    subst ha
    constructor
    · intro hempty
      rw [main_eq_two]
      simp [hempty]
    · intro hne
      rw [main_eq_two]
      simp [List.isEmpty_eq_false.mpr hne]

/-- C3 witness: wrong argument count, empty directory, and a directory
whose only file fails to parse (exit 0 nonetheless). -/
theorem c3_exit_codes_witness :
    main ["junit_parser.py"] (fun _ => ⟨true, true, []⟩) = ⟨1, [], [usageMsg]⟩ ∧
    (main ["junit_parser.py", "d"] (fun _ => ⟨true, true, []⟩)).exitCode = 1 ∧
    (main ["junit_parser.py", "d"] (fun _ => ⟨true, true, []⟩)).stdout = [] ∧
    (main ["junit_parser.py", "d"] (fun _ => ⟨true, true, [entryBroken]⟩)).exitCode = 0 := by
  refine ⟨(c3_exit_codes ["junit_parser.py"] (fun _ => ⟨true, true, []⟩)).1 (by decide), ?_, ?_, ?_⟩
  · exact (((c3_exit_codes ["junit_parser.py", "d"] (fun _ => ⟨true, true, []⟩)).2
      "junit_parser.py" "d" rfl).1 rfl).1
  · exact (((c3_exit_codes ["junit_parser.py", "d"] (fun _ => ⟨true, true, []⟩)).2
      "junit_parser.py" "d" rfl).1 rfl).2.1
  · exact ((c3_exit_codes ["junit_parser.py", "d"] (fun _ => ⟨true, true, [entryBroken]⟩)).2
      "junit_parser.py" "d" rfl).2 (List.ne_nil_of_length_pos (by decide))

/-- C4: the extractor reads exactly the attributes name, tests and time,
substitutes the literal defaults Unknown, 0, 0 when an attribute is
absent, and passes present attribute values through verbatim, with no
numeric validation or other transformation. -/
theorem c4_raw_attributes (e : XmlElem) (p : String) (b : Bool) :
    (e.tag = "testsuite" →
      parse_junit_xml ⟨p, b, .ok e⟩
        = (some ⟨e.get "name" "Unknown", e.get "tests" "0", e.get "time" "0"⟩, [])) ∧
    (∀ key dflt, e.attrs.find? (fun q => q.1 == key) = none → e.get key dflt = dflt) ∧
    (∀ key dflt kv, e.attrs.find? (fun q => q.1 == key) = some kv → e.get key dflt = kv.2) := by
  refine ⟨fun ht => ?_, fun key dflt hn => ?_, fun key dflt kv hs => ?_⟩
  · simp [parse_junit_xml, ht, extractRecord]
  · simp [XmlElem.get, hn]
  · simp [XmlElem.get, hs]

/-- C4 witness: a suite element with a non-numeric tests attribute and no
time attribute: the value is carried through verbatim and the missing
attribute defaults. -/
theorem c4_raw_attributes_witness :
    parse_junit_xml ⟨"d/raw.xml", true,
        .ok (.node "testsuite" [("name","My Suite"),("tests","not-a-number")] [])⟩
      = (some ⟨"My Suite", "not-a-number", "0"⟩, []) ∧
    (XmlElem.node "testsuite" [("name","My Suite"),("tests","not-a-number")] []).get "time" "0" = "0" ∧
    (XmlElem.node "testsuite" [("name","My Suite"),("tests","not-a-number")] []).get "tests" "0"
      = "not-a-number" := by
  have h := c4_raw_attributes
    (.node "testsuite" [("name","My Suite"),("tests","not-a-number")] []) "d/raw.xml" true
  refine ⟨?_, ?_, ?_⟩
  · rw [h.1 rfl]; decide
  · exact h.2.1 "time" "0" (by decide)
  · exact h.2.2 "tests" "0" ("tests","not-a-number") (by decide)

/-- C5: the extractor never propagates an exception: any open or parse
exception becomes a stderr line naming the file and the error plus a
no-result return, and a root tag other than testsuite and testsuites
yields a no-result return with no diagnostic. -/
theorem c5_exception_handling (f : Entry) :
    (∀ e, f.parsed = .error e →
      parse_junit_xml f = (none, ["Error parsing " ++ f.path ++ ": " ++ e])) ∧
    (∀ root, f.parsed = .ok root → root.tag ≠ "testsuite" → root.tag ≠ "testsuites" →
      parse_junit_xml f = (none, [])) := by
  constructor
  · intro e he
    simp [parse_junit_xml, he]
  · intro root hr ht1 ht2
    simp [parse_junit_xml, hr, beq_iff_eq, ht1, ht2]

/-- C5 witness: a file whose parse raises, and a file with an alien root
tag. -/
theorem c5_exception_handling_witness :
    parse_junit_xml ⟨"d/x.xml", true, .error "boom"⟩
      = (none, ["Error parsing d/x.xml: boom"]) ∧
    parse_junit_xml ⟨"d/h.xml", true, .ok (.node "html" [] [])⟩ = (none, []) := by
  constructor
  · rw [(c5_exception_handling ⟨"d/x.xml", true, .error "boom"⟩).1 "boom" rfl]
    decide
  · exact (c5_exception_handling ⟨"d/h.xml", true, .ok (.node "html" [] [])⟩).2
      (.node "html" [] []) rfl (by decide) (by decide)

/-- C6: a directory holding one malformed file next to two valid JUnit
files yields exactly the header plus the two valid rows on stdout, a
stderr diagnostic that names the malformed file, and exit status 0; in
general a file whose extraction fails contributes no row and removing it
from the batch leaves the emitted rows unchanged. -/
theorem c6_malformed_skipped :
    main ["junit_parser.py", "d"] (fun _ => ⟨true, true, [entryBroken, entryBeta, entryAlpha]⟩)
      = ⟨0, ["TestSuite,Tests,Runtime", "Alpha,3,0.1", "Beta,2,0.2"],
          ["Error parsing d/broken.xml: syntax error: line 1, column 0"]⟩ ∧
    (∀ (l1 l2 : List Entry) (f : Entry), (parse_junit_xml f).1 = none →
      (emitRows (l1 ++ f :: l2)).1 = (emitRows (l1 ++ l2)).1) := by
  constructor
  · decide
  · intro l1 l2 f hf
    rw [emitRows_append, emitRows_append]
    simp [emitRows, hf]

/-- C6 witness: the skipping clause applied to the broken fixture sitting
between the two valid fixtures. -/
theorem c6_malformed_skipped_witness :
    (parse_junit_xml entryBroken).1 = none ∧
    (emitRows [entryAlpha, entryBroken, entryBeta]).1 = (emitRows [entryAlpha, entryBeta]).1 := by
  refine ⟨by decide, ?_⟩
  exact c6_malformed_skipped.2 [entryAlpha] [entryBeta] entryBroken (by decide)

/-- C7: the data rows appear in ascending lexicographic order of the file
paths, and both the sorted file list and the stdout of the run are
invariant under permuting the order in which find_xml_files enumerates
the directory (paths in a directory are pairwise distinct). -/
theorem c7_row_order (directory : String) (d1 d2 : Dir)
    (hperm : d1.entries.Perm d2.entries)
    (hnd : (d1.entries.map Entry.path).Nodup)
    (he : d1.pathExists = d2.pathExists) (hd : d1.isDirectory = d2.isDirectory) :
    List.Sorted (fun a b : Entry => a.path ≤ b.path)
      (sortByPath (find_xml_files directory d1).1) ∧
    sortByPath (find_xml_files directory d1).1 = sortByPath (find_xml_files directory d2).1 ∧
    (∀ p (fs1 fs2 : String → Dir), fs1 directory = d1 → fs2 directory = d2 →
      (main [p, directory] fs1).stdout = (main [p, directory] fs2).stdout) := by
  refine ⟨?_, ?_, ?_⟩
  · exact List.Pairwise.imp (fun h => String.le_iff_toList_le.mpr h)
      (sortByPath_sorted (find_xml_files directory d1).1)
  · exact sortByPath_congr _ _ (find_xml_files_perm directory d1 d2 he hd hperm)
      (find_xml_files_nodup directory d1 hnd)
  · intro p fs1 fs2 h1 h2
    exact (main_congr_perm p directory fs1 fs2 (by rw [h1, h2, he])
      (by rw [h1, h2, hd]) (by rw [h1, h2]; exact hperm) (by rw [h1]; exact hnd)).1

/-- C7 witness: two enumerations of the same two-file directory, given in
opposite orders, sort identically and print identical stdout. -/
theorem c7_row_order_witness :
    List.Sorted (fun a b : Entry => a.path ≤ b.path)
      (sortByPath (find_xml_files "d" ⟨true, true, [entryBeta, entryAlpha]⟩).1) ∧
    sortByPath (find_xml_files "d" ⟨true, true, [entryBeta, entryAlpha]⟩).1
      = sortByPath (find_xml_files "d" ⟨true, true, [entryAlpha, entryBeta]⟩).1 ∧
    (main ["junit_parser.py", "d"] (fun _ => ⟨true, true, [entryBeta, entryAlpha]⟩)).stdout
      = (main ["junit_parser.py", "d"] (fun _ => ⟨true, true, [entryAlpha, entryBeta]⟩)).stdout := by
  have h := c7_row_order "d" ⟨true, true, [entryBeta, entryAlpha]⟩ ⟨true, true, [entryAlpha, entryBeta]⟩
    (List.Perm.swap entryAlpha entryBeta []) (by decide) rfl rfl
  exact ⟨h.1, h.2.1, h.2.2 "junit_parser.py" _ _ rfl rfl⟩

/-- C8: a missing path and a non-directory path each make the scanner
return the empty collection together with one human-readable stderr line,
without any fault escaping; on an existing directory it writes nothing to
stderr. -/
theorem c8_scanner_diagnostics (directory : String) (d : Dir) :
    (d.pathExists = false →
      find_xml_files directory d
        = ([], ["Error: Directory " ++ directory ++ " does not exist"])) ∧
    (d.pathExists = true → d.isDirectory = false →
      find_xml_files directory d = ([], ["Error: " ++ directory ++ " is not a directory"])) ∧
    (d.pathExists = true → d.isDirectory = true →
      (find_xml_files directory d).2 = []) := by
  refine ⟨fun h1 => ?_, fun h1 h2 => ?_, fun h1 h2 => ?_⟩
  · simp [find_xml_files, h1]
  · simp [find_xml_files, h1, h2]
  · simp [find_xml_files, h1, h2]

/-- C8 witness: a missing path, a non-directory path, and a normal
directory. -/
theorem c8_scanner_diagnostics_witness :
    find_xml_files "missing" ⟨false, false, []⟩
      = ([], ["Error: Directory missing does not exist"]) ∧
    find_xml_files "afile" ⟨true, false, []⟩
      = ([], ["Error: afile is not a directory"]) ∧
    (find_xml_files "d" ⟨true, true, [entryAlpha]⟩).2 = [] := by
  refine ⟨?_, ?_, ?_⟩
  · exact (c8_scanner_diagnostics "missing" ⟨false, false, []⟩).1 rfl
  · exact (c8_scanner_diagnostics "afile" ⟨true, false, []⟩).2.1 rfl rfl
  · exact (c8_scanner_diagnostics "d" ⟨true, true, [entryAlpha]⟩).2.2 rfl rfl

/-- C9: the program is deterministic as a function of the directory
contents: two runs over file systems that agree on every directory
(same flags, same set of entries, in possibly different enumeration
order) produce byte-identical CSV output and the same exit status. -/
theorem c9_deterministic (argv : List String) (fs1 fs2 : String → Dir)
    (h : ∀ s, (fs1 s).pathExists = (fs2 s).pathExists ∧
      (fs1 s).isDirectory = (fs2 s).isDirectory ∧
      (fs1 s).entries.Perm (fs2 s).entries ∧ ((fs1 s).entries.map Entry.path).Nodup) :
    (main argv fs1).stdout = (main argv fs2).stdout ∧
    (main argv fs1).exitCode = (main argv fs2).exitCode := by
  match argv with
  | [] => exact ⟨rfl, rfl⟩
  | [_] => exact ⟨rfl, rfl⟩
  | [p, directory] =>
    exact main_congr_perm p directory fs1 fs2 (h directory).1 (h directory).2.1
      (h directory).2.2.1 (h directory).2.2.2
  | _ :: _ :: _ :: _ => exact ⟨rfl, rfl⟩

/-- C9 witness: two runs over the same directory contents, enumerated in
opposite orders. -/
theorem c9_deterministic_witness :
    (main ["junit_parser.py", "d"] (fun _ => ⟨true, true, [entryBroken, entryAlpha]⟩)).stdout
      = (main ["junit_parser.py", "d"] (fun _ => ⟨true, true, [entryAlpha, entryBroken]⟩)).stdout ∧
    (main ["junit_parser.py", "d"] (fun _ => ⟨true, true, [entryBroken, entryAlpha]⟩)).exitCode
      = (main ["junit_parser.py", "d"] (fun _ => ⟨true, true, [entryAlpha, entryBroken]⟩)).exitCode :=
  c9_deterministic ["junit_parser.py", "d"] _ _
    (fun _ => ⟨rfl, rfl, List.Perm.swap entryAlpha entryBroken [], by decide⟩)

/-- C10: when the resolved file set is nonempty, stdout starts with the
header line followed by the rows of the extraction loop; in particular if
every found file fails extraction stdout is exactly the header, and the
exit status is 0. -/
theorem c10_header_first (p directory : String) (fs : String → Dir)
    (hne : (find_xml_files directory (fs directory)).1 ≠ []) :
    (main [p, directory] fs).stdout
      = headerLine :: (emitRows (sortByPath (find_xml_files directory (fs directory)).1)).1 ∧
    (main [p, directory] fs).exitCode = 0 ∧
    ((∀ f ∈ (find_xml_files directory (fs directory)).1, (parse_junit_xml f).1 = none) →
      (main [p, directory] fs).stdout = [headerLine]) := by
  have hE : (find_xml_files directory (fs directory)).1.isEmpty = false :=
    List.isEmpty_eq_false.mpr hne
  refine ⟨?_, ?_, ?_⟩
  · rw [main_eq_two]
    simp [hE]
  · rw [main_eq_two]
    simp [hE]
  · intro hall
    have hrows : (emitRows (sortByPath (find_xml_files directory (fs directory)).1)).1 = [] :=
      emitRows_none_fst _ (fun f hf =>
        hall f ((sortByPath_perm (find_xml_files directory (fs directory)).1).mem_iff.mp hf))
    rw [main_eq_two]
    simp [hE, hrows]

/-- C10 witness: a directory whose single XML file fails to parse still
gets the header, and the run exits 0. -/
theorem c10_header_first_witness :
    (main ["junit_parser.py", "d"] (fun _ => ⟨true, true, [entryBroken]⟩)).stdout = [headerLine] ∧
    (main ["junit_parser.py", "d"] (fun _ => ⟨true, true, [entryBroken]⟩)).exitCode = 0 := by
  have h := c10_header_first "junit_parser.py" "d" (fun _ => ⟨true, true, [entryBroken]⟩)
    (List.ne_nil_of_length_pos (by decide))
  exact ⟨h.2.2 (by decide), h.2.1⟩

end JUnitParser
